import Mathlib

/-!
Verification development for the `lametric-power-bridge` repository.

The Python sources are shallowly embedded as executable Lean definitions:

* machine text is modelled as lists of byte values (`List Nat`, each `< 128`
  for ASCII data), mirroring the `str`/`bytes` values flowing through the
  P1 serial codec;
* numeric measurement values (Python `float`s that originate from short
  decimal literals) are modelled as exact rationals `ℚ`;
* Python exceptions are modelled with `Except`, `sys.exit` with an explicit
  `exited` constructor, and `None` with `Option`;
* the deterministic core of the regular expression
  `([\d\-:\.]+)\(([0-9\.]+)(?:\*k?W)?\)` used by `P1SerialSource._parse_power`
  is compiled to a recursive leftmost-match scanner (`obisMatch`): the two
  character classes contain neither `(`, `)` nor `*`, so the greedy engine
  never backtracks into a shorter group and a position either matches with
  the maximal runs or not at all.

Each embedded definition names the Python function it was translated from.
-/

set_option maxRecDepth 1000000

namespace PowerBridge

/-- Bytes of an ASCII string, convenience for concrete inputs. -/
def strB (s : String) : List Nat := s.data.map Char.toNat

/-! ## Data model (`sources/base.py`) -/

/-- `sources/base.py` `PowerReading`: power in watts (positive = consuming,
negative = producing) plus an optional protocol-supplied timestamp. -/
structure PowerReading where
  power_watts : ℚ
  timestamp : Option String := none
deriving DecidableEq, Repr

/-! ## Telegram codec (`sources/p1_serial.py`) -/

/-- One bit round of `P1SerialSource._calculate_crc16`: shift right, and
XOR with the polynomial `0xA001` when the low bit was set. -/
def crcStep (crc : Nat) : Nat :=
  if crc &&& 1 = 1 then (crc >>> 1) ^^^ 0xA001 else crc >>> 1

/-- One byte round of `P1SerialSource._calculate_crc16`: XOR the byte into
the running CRC, then run eight bit rounds. -/
def crcByte (crc b : Nat) : Nat := crcStep^[8] (crc ^^^ b)

/-- `P1SerialSource._calculate_crc16`: fold the byte rounds over the data
starting from `0x0000`. -/
def calculate_crc16 (data : List Nat) : Nat := data.foldl crcByte 0

/-- Hex-digit test for one byte, as accepted by Python `int(_, 16)` on a
plain four-digit group (`0-9`, `a-f`, `A-F`). -/
def isHexDigitB (b : Nat) : Bool :=
  (48 ≤ b && b ≤ 57) || (97 ≤ b && b ≤ 102) || (65 ≤ b && b ≤ 70)

/-- Value of one hex digit byte. -/
def hexVal (b : Nat) : Nat :=
  if 48 ≤ b && b ≤ 57 then b - 48
  else if 97 ≤ b && b ≤ 102 then b - 87
  else if 65 ≤ b && b ≤ 70 then b - 55
  else 0

/-- Value of the four-hex-digit group `d1 d2 d3 d4`, as `int(line[1:5], 16)`. -/
def hexNum (d1 d2 d3 d4 : Nat) : Nat :=
  hexVal d1 * 4096 + hexVal d2 * 256 + hexVal d3 * 16 + hexVal d4

/-- `'\r\n'.join(lines)` on byte lists (CR = 13, LF = 10). -/
def joinCRLF : List (List Nat) → List Nat
  | [] => []
  | [l] => l
  | l :: ls => l ++ 13 :: 10 :: joinCRLF ls

/-- The byte range `P1SerialSource._validate_crc` runs the CRC over:
`'\r\n'.join(telegram[:-1]) + '\r\n!'` (every byte from the opening line
through and including the `!` of the terminator). -/
def crcPayload (telegram : List (List Nat)) : List Nat :=
  joinCRLF telegram.dropLast ++ [13, 10, 33]

/-- `P1SerialSource._validate_crc`.  The last line must start with `!` (33)
and carry at least four further bytes; the four bytes after `!` are parsed
as hex (a parse failure, like the `ValueError` in Python, yields `false`;
the laxer forms Python's `int(_, 16)` would also accept in those four
characters — sign, whitespace, an underscore — lie outside the DSMR
terminator grammar and outside every claim's hypotheses);
the payload must be ASCII-encodable (Python's `UnicodeEncodeError` is a
`ValueError` and is caught, yielding `false`); finally the recomputed CRC16
is compared with the stored value. -/
def validate_crc (telegram : List (List Nat)) : Bool :=
  match telegram.getLast? with
  | none => false
  | some last =>
    match last with
    | b0 :: d1 :: d2 :: d3 :: d4 :: _ =>
      (b0 == 33) && isHexDigitB d1 && isHexDigitB d2 && isHexDigitB d3 &&
      isHexDigitB d4 &&
      (crcPayload telegram).all (· < 128) &&
      (calculate_crc16 (crcPayload telegram) == hexNum d1 d2 d3 d4)
    | _ => false

/-- `P1SerialSource._read_telegram`, run over a finite list of incoming
decoded lines (an exhausted input models the read failure that makes the
Python function return `None`).  Blank lines are skipped; a line starting
with `/` (47) starts a fresh buffer; inside a telegram, lines are appended
and a line starting with `!` (33) triggers CRC validation: success returns
the buffered telegram, failure discards the whole buffer and returns to the
idle state. -/
def read_telegram : List (List Nat) → List (List Nat) → Bool → Option (List (List Nat))
  | [], _, _ => none
  | line :: rest, buf, inTel =>
    if line.isEmpty then read_telegram rest buf inTel
    else if line.head? = some 47 then read_telegram rest [line] true
    else if inTel then
      (let buf' := buf ++ [line]
       if line.head? = some 33 then
         if validate_crc buf' then some buf' else read_telegram rest [] false
       else read_telegram rest buf' true)
    else read_telegram rest buf inTel

/-! ## OBIS parsing (`P1SerialSource._parse_power`) -/

/-- Character class `[\d\-:\.]` of the OBIS regex (digits, `-`, `:`, `.`). -/
def isClass1 (b : Nat) : Bool := (48 ≤ b && b ≤ 57) || b == 45 || b == 58 || b == 46

/-- Character class `[0-9\.]` of the OBIS regex (digits and `.`). -/
def isClass2 (b : Nat) : Bool := (48 ≤ b && b ≤ 57) || b == 46

/-- Anchored attempt of `([\d\-:\.]+)\(([0-9\.]+)(?:\*k?W)?\)` at the start
of `s`: both classes exclude `(`, `)` and `*`, so the greedy groups are the
maximal runs and the optional unit suffix is tried as `*kW`, then `*W`,
then empty, each followed by `)` (40 = `(`, 41 = `)`, 42 = `*`,
107 = `k`, 87 = `W`). -/
def tryMatch (s : List Nat) : Option (List Nat × List Nat) :=
  let g1 := s.takeWhile isClass1
  if g1.isEmpty then none
  else
    match s.drop g1.length with
    | 40 :: t =>
      let g2 := t.takeWhile isClass2
      if g2.isEmpty then none
      else
        (match t.drop g2.length with
         | 42 :: 107 :: 87 :: 41 :: _ => some (g1, g2)
         | 42 :: 87 :: 41 :: _ => some (g1, g2)
         | 41 :: _ => some (g1, g2)
         | _ => none)
    | _ => none

/-- `re.search` of the OBIS pattern: try each start position left to right
and return the groups of the first successful anchored attempt. -/
def obisMatch : List Nat → Option (List Nat × List Nat)
  | [] => none
  | b :: rest =>
    match tryMatch (b :: rest) with
    | some g => some g
    | none => obisMatch rest

/-- Numeric value of a digit run (most significant first). -/
def digitsToNat (ds : List Nat) : Nat := ds.foldl (fun a b => a * 10 + (b - 48)) 0

/-- Python `float(s)` restricted to the strings the value group `[0-9\.]+`
can produce: it succeeds exactly when the string holds at least one digit
and at most one dot, and then denotes the exact decimal value (46 = `.`). -/
def parseDecimal (s : List Nat) : Option ℚ :=
  if s.any (fun b => 48 ≤ b && b ≤ 57) && s.count 46 ≤ 1 then
    let ip := s.takeWhile (fun b => !(b == 46))
    let fp := (s.dropWhile (fun b => !(b == 46))).drop 1
    some ((digitsToNat ip : ℚ) + (digitsToNat fp : ℚ) / 10 ^ fp.length)
  else none

/-- `P1SerialSource.OBIS_CONSUMPTION` (`"1-0:1.7.0"`). -/
def OBIS_CONSUMPTION : List Nat := strB "1-0:1.7.0"

/-- `P1SerialSource.OBIS_PRODUCTION` (`"1-0:2.7.0"`). -/
def OBIS_PRODUCTION : List Nat := strB "1-0:2.7.0"

/-- The line scan of `P1SerialSource._parse_power`: each line is searched
with the OBIS regex; on a match the value group goes through `float` (a
malformed value raises `ValueError`, modelled by `Except.error`), and the
last stored assignment per code wins. -/
def scanLines : List (List Nat) → Option ℚ → Option ℚ → Except Unit (Option ℚ × Option ℚ)
  | [], cons, prod => .ok (cons, prod)
  | l :: ls, cons, prod =>
    match obisMatch l with
    | none => scanLines ls cons prod
    | some (g1, g2) =>
      match parseDecimal g2 with
      | none => .error ()
      | some v =>
        if g1 = OBIS_CONSUMPTION then scanLines ls (some v) prod
        else if g1 = OBIS_PRODUCTION then scanLines ls cons (some v)
        else scanLines ls cons prod

/-- `P1SerialSource._parse_power`: scan all lines; if at least one of the
two codes was seen, return the net power
`(consumption or 0) * 1000 - (production or 0) * 1000` in watts with no
timestamp, otherwise `none`.  The `Except` layer carries the uncaught
`ValueError` a malformed matched value raises. -/
def parse_power (telegram : List (List Nat)) : Except Unit (Option PowerReading) :=
  (scanLines telegram none none).map fun cp =>
    if cp.1.isSome || cp.2.isSome then
      some { power_watts := cp.1.getD 0 * 1000 - cp.2.getD 0 * 1000, timestamp := none }
    else none

/-- Boolean presence of an OBIS code in a telegram: some line's leftmost
regex match has that code as its first group. -/
def codePresent (code : List Nat) (telegram : List (List Nat)) : Bool :=
  telegram.any fun l =>
    match obisMatch l with
    | some (g1, _) => g1 == code
    | none => false

/-- One iteration of the `P1SerialSource.stream` loop, given the result of
`_read_telegram`: no telegram or an uncaught parse exception bumps the
consecutive-error counter, a telegram without power codes leaves it alone,
and a parsed reading resets it to zero and is yielded. -/
def p1StreamStep (consecutive_errors : Nat) (telegram : Option (List (List Nat))) :
    Option PowerReading × Nat :=
  match telegram with
  | none => (none, consecutive_errors + 1)
  | some t =>
    match parse_power t with
    | .error _ => (none, consecutive_errors + 1)
    | .ok none => (none, consecutive_errors)
    | .ok (some r) => (some r, 0)

/-! ## Sink formatting (`sinks/lametric.py`) -/

/-- `ICON_POWER` (drawing power / consuming). -/
def ICON_POWER : Nat := 26337

/-- `ICON_SOLAR` (feeding power / producing). -/
def ICON_SOLAR : Nat := 54077

/-- `ICON_STALE` (no data). -/
def ICON_STALE : Nat := 1059

/-- Python's built-in `round` (banker's rounding, half to even) on the
exact rational value of the float argument. -/
def pyRound (q : ℚ) : ℤ :=
  let f := ⌊q⌋
  let r := q - f
  if r < 1 / 2 then f
  else if 1 / 2 < r then f + 1
  else if f % 2 = 0 then f else f + 1

/-- Python `f"{x:.1f}"` on the exact rational value: round half to even at
one decimal and print sign, integer part, dot, one digit. -/
def fmt1 (x : ℚ) : String :=
  let n := pyRound (x * 10)
  let a := n.natAbs
  (if n < 0 then "-" else "") ++ toString (a / 10) ++ "." ++ toString (a % 10)

/-- One frame of the LaMetric payload (`{"text": .., "icon": .., "index": ..}`). -/
structure Frame where
  text : String
  icon : Nat
  index : Nat
deriving DecidableEq, Repr

/-- The frame built by `push_to_lametric`: round the watts, pick the solar
icon exactly for negative rounded power, and format as integer watts, or as
one-decimal kilowatts when the rounded magnitude reaches 10000. -/
def push_to_lametric (reading : PowerReading) : Frame :=
  let power := pyRound reading.power_watts
  let icon := if power < 0 then ICON_SOLAR else ICON_POWER
  let text :=
    if 10000 ≤ |power| then fmt1 ((power : ℚ) / 1000) ++ " kW"
    else s!"{power} W"
  { text := text, icon := icon, index := 0 }

/-- The fixed frame built by `push_to_lametric_stale`. -/
def push_to_lametric_stale : Frame :=
  { text := "-- W", icon := ICON_STALE, index := 0 }

/-! ## Endpoint rebinding (`LaMetricURLManager._replace_host`) -/

/-- The components `urlparse` exposes and `urlunparse` reassembles,
without user-info (LaMetric URLs carry credentials in headers, not in the
netloc). -/
structure URLParts where
  scheme : String
  host : String
  port : Option Nat
  path : String
  params : String
  query : String
  fragment : String
deriving DecidableEq, Repr

/-- `LaMetricURLManager._replace_host`: rebuild the netloc as
`f"{new_ip}:{port}"` where `port = parsed.port or 8080` (both an absent
port and the falsy port `0` become `8080`), keeping every other component
from the parsed URL. -/
def replace_host (url : URLParts) (new_ip : String) : URLParts :=
  let port := match url.port with
    | some p => if p = 0 then 8080 else p
    | none => 8080
  { scheme := url.scheme, host := new_ip, port := some port, path := url.path,
    params := url.params, query := url.query, fragment := url.fragment }

/-! ## Sink push path (`send_http_payload`, `_retry_with_rediscovery`) -/

/-- The Python exception classes distinguished by the `except` clauses of
`send_http_payload`. -/
inductive PyExc
  | connectionError
  | valueError
  | otherError
deriving DecidableEq, Repr

/-- Observable outcome of one `send_http_payload` call (every constructor
is a normal return; `sys.exit` is never reached on this path). -/
inductive SendOutcome
  | skippedNoApiKey
  | configErrorLogged
  | sent
  | retriedOk
  | retryFailedLogged
  | failedLogged
deriving DecidableEq, Repr

/-- The I/O behaviour a single push can encounter: the result of the first
`_make_request_sync`, the result `_discover_lametric` would return during
`rediscover()`, and the result of the retried request. -/
structure SinkNet where
  firstRequest : Except PyExc Unit
  rediscovered : Option String
  retryRequest : Except PyExc Unit

/-- `_retry_with_rediscovery`: without a previously discovered IP the retry
is skipped; a failed re-discovery returns `False`; otherwise the retried
request's own exceptions are caught and logged (`False`), success is
`True`.  All branches return normally. -/
def retry_with_rediscovery (canRediscover : Bool) (net : SinkNet) : Except PyExc Bool :=
  if !canRediscover then .ok false
  else
    match net.rediscovered with
    | none => .ok false
    | some _ =>
      match net.retryRequest with
      | .ok _ => .ok true
      | .error _ => .ok false

/-- `send_http_payload`: a falsy `LAMETRIC_API_KEY` skips the push; a
missing `LAMETRIC_URL` raises `ValueError`, caught and logged; a
`ConnectionError` from the request triggers the single
rediscovery-and-retry; every other exception is caught and logged. -/
def send_http_payload (apiKey baseUrl : Option String) (discoveredIp : Option String)
    (net : SinkNet) : Except PyExc SendOutcome :=
  if apiKey.isNone then .ok .skippedNoApiKey
  else
    match baseUrl with
    | none => .ok .configErrorLogged
    | some _ =>
      match net.firstRequest with
      | .ok _ => .ok .sent
      | .error .valueError => .ok .configErrorLogged
      | .error .connectionError =>
        (retry_with_rediscovery discoveredIp.isSome net).map fun ok =>
          if ok then .retriedOk else .retryFailedLogged
      | .error .otherError => .ok .failedLogged

/-! ## SSDP discovery (`_SSDPDiscoveryProtocol.datagram_received`) -/

/-- The device URN searched for. -/
def LAMETRIC_URN : String := "urn:schemas-upnp-org:device:LaMetric:1"

/-- Bool substring containment, Python's `in` on `str`. -/
def containsSub (sub s : String) : Bool := decide (sub.data.IsInfix s.data)

/-- The acceptance test of `datagram_received`: the decoded message holds
both `"HTTP/1.1 200 OK"` and the LaMetric URN. -/
def ssdpOk (msg : String) : Bool :=
  containsSub "HTTP/1.1 200 OK" msg && containsSub LAMETRIC_URN msg

/-- The effect of delivering a reply sequence to
`_SSDPDiscoveryProtocol.datagram_received`: the first accepted reply
resolves the future with the sender's IP and closes the transport; no
reply ever resolves it to a failure, and an exhausted sequence models the
discovery timeout (`None`).  Each reply is `(decoded message, source IP)`. -/
def ssdpCollect : List (String × String) → Option String
  | [] => none
  | (msg, ip) :: rest => if ssdpOk msg then some ip else ssdpCollect rest

/-! ## mDNS discovery (`sources/discovery.py`, `sources/discovery_mdns.py`) -/

/-- Resolved service info of one mDNS advertisement: TXT properties and
parsed addresses. -/
structure AdInfo where
  props : List (String × String)
  addresses : List String
deriving DecidableEq, Repr

/-- One mDNS advertisement as seen by a listener: `get_service_info` may
fail (`none`). -/
structure MDNSAd where
  name : String
  info : Option AdInfo
deriving DecidableEq, Repr

/-- `TARGET_PRODUCT_TYPE` of `discovery_mdns.py`. -/
def TARGET_PRODUCT_TYPE : String := "HWE-P1"

/-- `discovery_mdns.HomeWizardListener.add_service` over an advertisement
sequence: skip advertisements without resolvable info, check the
`product_type` TXT record against the target, and capture the first
address of the first matching advertisement (later events are ignored once
one is found). -/
def mdnsListener (target : String) : List MDNSAd → Option String
  | [] => none
  | ad :: rest =>
    match ad.info with
    | none => mdnsListener target rest
    | some info =>
      if (info.props.lookup "product_type") = some target then
        match info.addresses with
        | [] => mdnsListener target rest
        | a :: _ => some a
      else mdnsListener target rest

/-- The inner listener of `discovery.discover_homewizard`: the first
advertisement with resolvable info and a nonempty address list wins —
its TXT records are never inspected. -/
def discover_homewizard : List MDNSAd → Option String
  | [] => none
  | ad :: rest =>
    match ad.info with
    | none => discover_homewizard rest
    | some info =>
      match info.addresses with
      | [] => discover_homewizard rest
      | a :: _ => some a

/-! ## Cloud source bootstrap (`sources/tibber.py`) -/

/-- One home record of the Tibber bootstrap response. -/
structure TibberHome where
  id : String
  realTimeConsumptionEnabled : Bool
  appNickname : Option String
deriving DecidableEq, Repr

/-- The `viewer` object of the bootstrap response. -/
structure TibberViewer where
  websocketSubscriptionUrl : Option String
  homes : List TibberHome
deriving DecidableEq, Repr

/-- Result of a `connect()` call: either `sys.exit(code)` was reached or a
value is produced. -/
inductive ConnectResult (α : Type)
  | exited (code : Nat)
  | ok (val : α)
deriving DecidableEq, Repr

/-- `TibberSource.connect`: a falsy token exits immediately with status 1;
a failed bootstrap request exits with 1; then the first home with
`realTimeConsumptionEnabled` is chosen, and a missing WebSocket URL or a
missing eligible home each exit with 1.  No branch retries. -/
def tibber_connect (token : Option String) (bootstrap : Except PyExc TibberViewer) :
    ConnectResult (String × String) :=
  match token with
  | none => .exited 1
  | some _ =>
    match bootstrap with
    | .error _ => .exited 1
    | .ok viewer =>
      let home := viewer.homes.find? (·.realTimeConsumptionEnabled)
      match viewer.websocketSubscriptionUrl with
      | none => .exited 1
      | some wss =>
        match home with
        | none => .exited 1
        | some h => .ok (wss, h.id)

/-! ## HTTP-poll and Local-WS stream loops
(`sources/homewizard_p1.py`, `sources/homewizard_v2.py`) -/

/-- One HTTP poll response as `HomeWizardP1Source.stream` case-splits on
it: device busy (429/503), a JSON body whose `active_power_w` field may be
absent, an HTTP status error, or a connection/other error. -/
inductive HwResponse
  | busy
  | body (active_power_w : Option ℚ)
  | httpError
  | connError
deriving DecidableEq, Repr

/-- One iteration of the `HomeWizardP1Source.stream` polling loop: a busy
or failed poll bumps the consecutive-error counter, a body without the
power field leaves it alone, and a present power field resets it to zero
and yields a reading with no timestamp. -/
def hwP1StreamStep (consecutive_errors : Nat) (resp : HwResponse) :
    Option PowerReading × Nat :=
  match resp with
  | .busy => (none, consecutive_errors + 1)
  | .httpError => (none, consecutive_errors + 1)
  | .connError => (none, consecutive_errors + 1)
  | .body none => (none, consecutive_errors)
  | .body (some p) => (some { power_watts := p, timestamp := none }, 0)

/-- One WebSocket message of the HomeWizard v2 data loop. -/
inductive V2Msg
  | measurement (power_w : Option ℚ) (timestamp : Option String)
  | errorMsg
  | other
deriving DecidableEq, Repr

/-- The post-handshake data loop of `HomeWizardV2Source.stream`,
instrumented with the value `consecutive_failures` holds at each yield:
the loop body never writes that variable, so every reading is paired with
the value the counter had when the loop was entered.  Measurements without
`power_w`, error messages and unknown messages yield nothing. -/
def v2DataLoop (consecutive_failures : Nat) : List V2Msg → List (PowerReading × Nat)
  | [] => []
  | .measurement (some p) ts :: rest =>
    ({ power_watts := p, timestamp := ts }, consecutive_failures) :: v2DataLoop consecutive_failures rest
  | .measurement none _ :: rest => v2DataLoop consecutive_failures rest
  | .errorMsg :: rest => v2DataLoop consecutive_failures rest
  | .other :: rest => v2DataLoop consecutive_failures rest

/-- The counter update `HomeWizardV2Source.stream` performs when a
connection attempt ends: only a data loop that finishes without an
exception (server closed cleanly) resets `consecutive_failures`; a
`ConnectionClosed` or other exception increments it. -/
def v2SessionEnd (consecutive_failures : Nat) (cleanClose : Bool) : Nat :=
  if cleanClose then 0 else consecutive_failures + 1

/-! # Theorems -/

theorem xor_lt_65536 {a b : Nat} (ha : a < 65536) (hb : b < 65536) : a ^^^ b < 65536 := by
  have e : (65536 : Nat) = 2 ^ 16 := by norm_num
  rw [e] at ha hb ⊢
  exact Nat.xor_lt_two_pow ha hb

theorem crcStep_lt {a : Nat} (h : a < 65536) : crcStep a < 65536 := by
  unfold crcStep
  split
  · exact xor_lt_65536 (by rw [Nat.shiftRight_one]; omega) (by norm_num)
  · rw [Nat.shiftRight_one]; omega

theorem xor_poly_ge {x : Nat} (hx : x < 32768) : 32768 ≤ x ^^^ 0xA001 := by
  have ht : (x ^^^ 0xA001).testBit 15 = true := by
    rw [Nat.testBit_xor]
    have hx15 : x.testBit 15 = false := Nat.testBit_lt_two_pow (by norm_num; omega)
    rw [hx15]
    decide
  have := Nat.testBit_implies_ge ht
  norm_num at this
  omega

theorem crcStep_inj {a b : Nat} (ha : a < 65536) (hb : b < 65536)
    (h : crcStep a = crcStep b) : a = b := by
  unfold crcStep at h
  rw [Nat.and_one_is_mod, Nat.and_one_is_mod, Nat.shiftRight_one, Nat.shiftRight_one] at h
  by_cases h1 : a % 2 = 1 <;> by_cases h2 : b % 2 = 1 <;>
      simp only [h1, h2, if_true, if_pos, if_neg, if_false] at h <;> try omega
  · have h' := congrArg (· ^^^ 0xA001) h
    simp only [Nat.xor_cancel_right] at h'
    omega
  · have := xor_poly_ge (x := a / 2) (by omega)
    omega
  · have := xor_poly_ge (x := b / 2) (by omega)
    omega

theorem crcStep_iterate_lt (n : Nat) {a : Nat} (h : a < 65536) : crcStep^[n] a < 65536 := by
  induction n generalizing a with
  | zero => simpa using h
  | succ k ih =>
    rw [Function.iterate_succ_apply]
    exact ih (crcStep_lt h)

theorem crcStep_iterate_inj (n : Nat) {a b : Nat} (ha : a < 65536) (hb : b < 65536)
    (h : crcStep^[n] a = crcStep^[n] b) : a = b := by
  induction n generalizing a b with
  | zero => simpa using h
  | succ k ih =>
    rw [Function.iterate_succ_apply, Function.iterate_succ_apply] at h
    exact crcStep_inj ha hb (ih (crcStep_lt ha) (crcStep_lt hb) h)

theorem crcByte_lt {a b : Nat} (ha : a < 65536) (hb : b < 65536) : crcByte a b < 65536 :=
  crcStep_iterate_lt 8 (xor_lt_65536 ha hb)

theorem crcByte_inj_left {a1 a2 b : Nat} (h1 : a1 < 65536) (h2 : a2 < 65536) (hb : b < 65536)
    (h : crcByte a1 b = crcByte a2 b) : a1 = a2 := by
  have hx := crcStep_iterate_inj 8 (xor_lt_65536 h1 hb) (xor_lt_65536 h2 hb) h
  have := congrArg (· ^^^ b) hx
  simpa only [Nat.xor_cancel_right] using this

theorem crcByte_inj_right {a b1 b2 : Nat} (ha : a < 65536) (h1 : b1 < 65536) (h2 : b2 < 65536)
    (h : crcByte a b1 = crcByte a b2) : b1 = b2 := by
  have hx := crcStep_iterate_inj 8 (xor_lt_65536 ha h1) (xor_lt_65536 ha h2) h
  have := congrArg (fun y => a ^^^ y) hx
  simpa only [Nat.xor_cancel_left] using this

theorem foldl_crcByte_lt (L : List Nat) {a : Nat} (hL : ∀ x ∈ L, x < 65536)
    (ha : a < 65536) : L.foldl crcByte a < 65536 := by
  induction L generalizing a with
  | nil => simpa using ha
  | cons b L ih =>
    simp only [List.foldl_cons]
    exact ih (fun x hx => hL x (List.mem_cons_of_mem _ hx))
      (crcByte_lt ha (hL b (List.mem_cons_self _ _)))

theorem foldl_crcByte_inj (L : List Nat) {a1 a2 : Nat} (hL : ∀ x ∈ L, x < 65536)
    (h1 : a1 < 65536) (h2 : a2 < 65536)
    (h : L.foldl crcByte a1 = L.foldl crcByte a2) : a1 = a2 := by
  induction L generalizing a1 a2 with
  | nil => simpa using h
  | cons b L ih =>
    simp only [List.foldl_cons] at h
    have hb := hL b (List.mem_cons_self _ _)
    have := ih (fun x hx => hL x (List.mem_cons_of_mem _ hx))
      (crcByte_lt h1 hb) (crcByte_lt h2 hb) h
    exact crcByte_inj_left h1 h2 hb this

theorem crc16_single_byte_ne (A B : List Nat) {b b' : Nat}
    (hA : ∀ x ∈ A, x < 65536) (hB : ∀ x ∈ B, x < 65536)
    (hb : b < 65536) (hb' : b' < 65536) (hne : b ≠ b') :
    calculate_crc16 (A ++ b :: B) ≠ calculate_crc16 (A ++ b' :: B) := by
  intro h
  unfold calculate_crc16 at h
  rw [List.foldl_append, List.foldl_append, List.foldl_cons, List.foldl_cons] at h
  have hcA : A.foldl crcByte 0 < 65536 := foldl_crcByte_lt A hA (by norm_num)
  have := foldl_crcByte_inj B hB (crcByte_lt hcA hb) (crcByte_lt hcA hb') h
  exact hne (crcByte_inj_right hcA hb hb' this)

theorem joinCRLF_cons_of_ne_nil {l : List Nat} {r : List (List Nat)} (h : r ≠ []) :
    joinCRLF (l :: r) = l ++ 13 :: 10 :: joinCRLF r := by
  cases r with
  | nil => exact absurd rfl h
  | cons a as => rfl

theorem joinCRLF_middle (pre : List (List Nat)) (u v : List Nat) (mids : List (List Nat)) :
    ∃ A B, ∀ b : Nat, joinCRLF (pre ++ (u ++ b :: v) :: mids) = A ++ b :: B := by
  induction pre with
  | nil =>
    cases mids with
    | nil => exact ⟨u, v, fun b => by simp [joinCRLF]⟩
    | cons m ms =>
      refine ⟨u, v ++ 13 :: 10 :: joinCRLF (m :: ms), fun b => ?_⟩
      rw [List.nil_append, joinCRLF_cons_of_ne_nil (by simp)]
      simp
  | cons l pre ih =>
    obtain ⟨A, B, hAB⟩ := ih
    refine ⟨l ++ 13 :: 10 :: A, B, fun b => ?_⟩
    rw [List.cons_append, joinCRLF_cons_of_ne_nil (by simp), hAB b]
    simp

theorem joinCRLF_bound {t : List (List Nat)} (h : ∀ l ∈ t, ∀ x ∈ l, x < 128) :
    ∀ x ∈ joinCRLF t, x < 128 := by
  induction t with
  | nil => simp [joinCRLF]
  | cons l r ih =>
    cases r with
    | nil => simpa [joinCRLF] using h l (by simp)
    | cons m ms =>
      rw [joinCRLF_cons_of_ne_nil (by simp)]
      intro x hx
      rcases List.mem_append.mp hx with hx | hx
      · exact h l (by simp) x hx
      · rcases hx with _ | ⟨_, hx⟩
        · omega
        · rcases hx with _ | ⟨_, hx⟩
          · omega
          · exact ih (fun l' hl' => h l' (List.mem_cons_of_mem _ hl')) x hx

theorem getLast?_append_cons {α : Type} (pre : List α) (x : α) (suf : List α) (h : suf ≠ []) :
    (pre ++ x :: suf).getLast? = suf.getLast? := by
  obtain ⟨L, hL⟩ := Option.isSome_iff_exists.mp (List.getLast?_isSome.mpr h)
  rw [List.getLast?_append, show x :: suf = [x] ++ suf from rfl, List.getLast?_append, hL]
  rfl

theorem validate_crc_elim {t : List (List Nat)} (h : validate_crc t = true) :
    ∃ d1 d2 d3 d4 rest, t.getLast? = some (33 :: d1 :: d2 :: d3 :: d4 :: rest) ∧
      isHexDigitB d1 = true ∧ isHexDigitB d2 = true ∧ isHexDigitB d3 = true ∧
      isHexDigitB d4 = true ∧ (crcPayload t).all (· < 128) = true ∧
      calculate_crc16 (crcPayload t) = hexNum d1 d2 d3 d4 := by
  unfold validate_crc at h
  rcases hg : t.getLast? with _ | L <;> rw [hg] at h
  · simp at h
  · rcases L with _ | ⟨b0, L1⟩
    · simp at h
    rcases L1 with _ | ⟨d1, L2⟩
    · simp at h
    rcases L2 with _ | ⟨d2, L3⟩
    · simp at h
    rcases L3 with _ | ⟨d3, L4⟩
    · simp at h
    rcases L4 with _ | ⟨d4, rest⟩
    · simp at h
    simp only [Bool.and_eq_true, beq_iff_eq] at h
    obtain ⟨⟨⟨⟨⟨⟨hb0, h1⟩, h2⟩, h3⟩, h4⟩, hall⟩, hcrc⟩ := h
    subst hb0
    exact ⟨d1, d2, d3, d4, rest, rfl, h1, h2, h3, h4, hall, hcrc⟩

theorem validate_crc_eq {t : List (List Nat)} {b0 d1 d2 d3 d4 : Nat} {rest : List Nat}
    (h : t.getLast? = some (b0 :: d1 :: d2 :: d3 :: d4 :: rest)) :
    validate_crc t = ((b0 == 33) && isHexDigitB d1 && isHexDigitB d2 && isHexDigitB d3 &&
      isHexDigitB d4 && (crcPayload t).all (· < 128) &&
      (calculate_crc16 (crcPayload t) == hexNum d1 d2 d3 d4)) := by
  unfold validate_crc
  rw [h]

/-- Claim C1: for every telegram whose terminator line is `!` followed by four
hex digits, `_validate_crc` succeeds exactly when the CRC16 (polynomial
`0xA001`) over the bytes from the opening line through and including the `!`
equals the terminator's hex value; and corrupting any single byte of a valid
telegram's covered range (any byte of a non-terminator line, or the `!`
itself) makes validation fail. -/
theorem crc_validation_characterisation :
    (∀ (pre : List (List Nat)) (d1 d2 d3 d4 : Nat) (rest : List Nat),
      isHexDigitB d1 = true → isHexDigitB d2 = true → isHexDigitB d3 = true →
      isHexDigitB d4 = true →
      (∀ l ∈ pre, ∀ x ∈ l, x < 128) →
      (validate_crc (pre ++ [33 :: d1 :: d2 :: d3 :: d4 :: rest]) = true ↔
        calculate_crc16 (crcPayload (pre ++ [33 :: d1 :: d2 :: d3 :: d4 :: rest])) =
          hexNum d1 d2 d3 d4)) ∧
    (∀ (pre : List (List Nat)) (u v : List Nat) (b b' : Nat) (suf : List (List Nat)),
      suf ≠ [] → b' ≠ b →
      validate_crc (pre ++ (u ++ b :: v) :: suf) = true →
      validate_crc (pre ++ (u ++ b' :: v) :: suf) = false) ∧
    (∀ (pre : List (List Nat)) (c : Nat) (rest : List Nat), c ≠ 33 →
      validate_crc (pre ++ [c :: rest]) = false) := by
  refine ⟨?_, ?_, ?_⟩
  · intro pre d1 d2 d3 d4 rest h1 h2 h3 h4 hpre
    rw [validate_crc_eq (List.getLast?_concat pre)]
    have hall : (crcPayload (pre ++ [33 :: d1 :: d2 :: d3 :: d4 :: rest])).all (· < 128) = true := by
      rw [List.all_eq_true]
      intro x hx
      unfold crcPayload at hx
      rw [List.dropLast_concat] at hx
      rcases List.mem_append.mp hx with hx | hx
      · simpa using joinCRLF_bound hpre x hx
      · simp at hx
        rcases hx with hx | hx | hx <;> simp [hx]
    simp [h1, h2, h3, h4, hall]
  · intro pre u v b b' suf hsuf hne hval
    obtain ⟨d1, d2, d3, d4, rest, hlast, h1, h2, h3, h4, hall, hcrc⟩ := validate_crc_elim hval
    have hlastt : (pre ++ (u ++ b :: v) :: suf).getLast? = suf.getLast? :=
      getLast?_append_cons _ _ _ hsuf
    have hsufLast : suf.getLast? = some (33 :: d1 :: d2 :: d3 :: d4 :: rest) := by
      rw [← hlastt]; exact hlast
    have hlastt' : (pre ++ (u ++ b' :: v) :: suf).getLast? =
        some (33 :: d1 :: d2 :: d3 :: d4 :: rest) := by
      rw [getLast?_append_cons _ _ _ hsuf, hsufLast]
    rw [validate_crc_eq hlastt']
    obtain ⟨A, B, hAB⟩ := joinCRLF_middle pre u v suf.dropLast
    have hdrop : ∀ (x : List Nat), (pre ++ x :: suf).dropLast = pre ++ x :: suf.dropLast := by
      intro x
      rw [List.dropLast_append_of_ne_nil _ (by simp), List.dropLast_cons_of_ne_nil hsuf]
    have hpay : ∀ (y : Nat), crcPayload (pre ++ (u ++ y :: v) :: suf) =
        A ++ y :: (B ++ [13, 10, 33]) := by
      intro y
      unfold crcPayload
      rw [hdrop, hAB y]
      simp
    rw [hpay b] at hall hcrc
    have hmem : ∀ x ∈ A ++ b :: (B ++ [13, 10, 33]), x < 128 := by
      intro x hx
      have := List.all_eq_true.mp hall x hx
      simpa using this
    by_cases hb' : b' < 128
    · have hAb : ∀ x ∈ A, x < 65536 := fun x hx => by
        have := hmem x (List.mem_append_left _ hx); omega
      have hBb : ∀ x ∈ B ++ [13, 10, 33], x < 65536 := fun x hx => by
        have := hmem x (List.mem_append_right _ (List.mem_cons_of_mem _ hx)); omega
      have hbb : b < 65536 := by have := hmem b (by simp); omega
      have hcrcne := crc16_single_byte_ne A (B ++ [13, 10, 33]) hAb hBb hbb (by omega)
        (fun e => hne e.symm)
      have hbeq : (calculate_crc16 (crcPayload (pre ++ (u ++ b' :: v) :: suf)) ==
          hexNum d1 d2 d3 d4) = false := by
        rw [hpay b', beq_eq_false_iff_ne]
        exact fun e => hcrcne (hcrc.trans e.symm)
      simp [hbeq]
    · have hfalse : (crcPayload (pre ++ (u ++ b' :: v) :: suf)).all (· < 128) = false := by
        have hnt : ¬ ((crcPayload (pre ++ (u ++ b' :: v) :: suf)).all (· < 128) = true) := by
          intro habs
          rw [hpay b'] at habs
          have := List.all_eq_true.mp habs b' (by simp)
          simp at this
          omega
        cases hca : (crcPayload (pre ++ (u ++ b' :: v) :: suf)).all (· < 128)
        · rfl
        · exact absurd hca hnt
      simp [hfalse]
  · intro pre c rest hc
    have hlast := List.getLast?_concat (a := c :: rest) pre
    unfold validate_crc
    rw [hlast]
    rcases rest with _ | ⟨d1, L2⟩
    · rfl
    rcases L2 with _ | ⟨d2, L3⟩
    · rfl
    rcases L3 with _ | ⟨d3, L4⟩
    · rfl
    rcases L4 with _ | ⟨d4, r⟩
    · rfl
    have : (c == 33) = false := beq_eq_false_iff_ne.mpr hc
    simp [this]

/-- Concrete instance of the C1 theorem at the two-line telegram `/A`,
`!8196` (CRC16 of `/A\r\n!` is `0x8196`), its corruption at the byte `A`,
and its corruption at the `!`. -/
theorem crc_validation_characterisation_witness :
    (validate_crc [[47, 65], [33, 56, 49, 57, 54]] = true ↔
      calculate_crc16 (crcPayload [[47, 65], [33, 56, 49, 57, 54]]) = hexNum 56 49 57 54) ∧
    validate_crc [[47, 66], [33, 56, 49, 57, 54]] = false ∧
    validate_crc [[47, 65], [35, 56, 49, 57, 54]] = false :=
  ⟨crc_validation_characterisation.1 [[47, 65]] 56 49 57 54 [] (by decide) (by decide)
      (by decide) (by decide) (by decide),
   crc_validation_characterisation.2.1 [] [47] [] 65 66 [[33, 56, 49, 57, 54]] (by decide)
      (by decide) (by decide),
   crc_validation_characterisation.2.2 [[47, 65]] 35 [56, 49, 57, 54] (by decide)⟩

/-- Processing a run of ordinary telegram lines (nonempty, not starting
with `/` or `!`) inside a telegram just appends them to the buffer. -/
theorem read_telegram_collect (mids : List (List Nat)) :
    ∀ (buf : List (List Nat)) (rest : List (List Nat)),
    (∀ l ∈ mids, l ≠ [] ∧ l.head? ≠ some 47 ∧ l.head? ≠ some 33) →
    read_telegram (mids ++ rest) buf true = read_telegram rest (buf ++ mids) true := by
  induction mids with
  | nil => intro buf rest _; simp
  | cons l mids ih =>
    intro buf rest hm
    obtain ⟨hne, h47, h33⟩ := hm l (List.mem_cons_self _ _)
    have hnemp : l.isEmpty = false := by
      cases l
      · exact absurd rfl hne
      · rfl
    rw [List.cons_append, read_telegram, hnemp]
    simp only [Bool.false_eq_true, if_false, if_neg h47, if_pos rfl, if_neg h33, if_pos trivial]
    rw [ih (buf ++ [l]) rest (fun x hx => hm x (List.mem_cons_of_mem _ hx))]
    simp

/-- Claim C8: a telegram whose CRC check fails is discarded wholesale by
`_read_telegram` — reading continues from the idle state exactly as if the
bad telegram had never arrived, so no reading is emitted for it — and one
`stream` iteration built on that result leaves the consecutive-failure
counter exactly as the input without the bad telegram would. -/
theorem crc_mismatch_discards_telegram :
    (∀ (slash : List Nat) (mids : List (List Nat)) (bang : List Nat) (rest : List (List Nat)),
      slash.head? = some 47 →
      (∀ l ∈ mids, l ≠ [] ∧ l.head? ≠ some 47 ∧ l.head? ≠ some 33) →
      bang.head? = some 33 →
      validate_crc (slash :: (mids ++ [bang])) = false →
      read_telegram ((slash :: (mids ++ [bang])) ++ rest) [] false =
        read_telegram rest [] false) ∧
    (∀ (slash : List Nat) (mids : List (List Nat)) (bang : List Nat) (rest : List (List Nat))
      (counter : Nat),
      slash.head? = some 47 →
      (∀ l ∈ mids, l ≠ [] ∧ l.head? ≠ some 47 ∧ l.head? ≠ some 33) →
      bang.head? = some 33 →
      validate_crc (slash :: (mids ++ [bang])) = false →
      p1StreamStep counter (read_telegram ((slash :: (mids ++ [bang])) ++ rest) [] false) =
        p1StreamStep counter (read_telegram rest [] false)) := by
  have main : ∀ (slash : List Nat) (mids : List (List Nat)) (bang : List Nat)
      (rest : List (List Nat)),
      slash.head? = some 47 →
      (∀ l ∈ mids, l ≠ [] ∧ l.head? ≠ some 47 ∧ l.head? ≠ some 33) →
      bang.head? = some 33 →
      validate_crc (slash :: (mids ++ [bang])) = false →
      read_telegram ((slash :: (mids ++ [bang])) ++ rest) [] false =
        read_telegram rest [] false := by
    intro slash mids bang rest hs hm hb hval
    have hslash_ne : slash.isEmpty = false := by
      cases slash
      · simp at hs
      · rfl
    have hbang_ne : bang.isEmpty = false := by
      cases bang
      · simp at hb
      · rfl
    have hb47 : bang.head? ≠ some 47 := by rw [hb]; simp
    rw [List.cons_append, read_telegram, hslash_ne]
    simp only [Bool.false_eq_true, if_false, if_pos hs]
    rw [List.append_assoc, read_telegram_collect mids [slash] ([bang] ++ rest) hm]
    rw [List.cons_append, read_telegram, hbang_ne]
    simp only [Bool.false_eq_true, if_false, if_neg hb47, if_pos trivial, if_pos hb]
    have : ([slash] ++ mids) ++ [bang] = slash :: (mids ++ [bang]) := by simp
    rw [this, hval]
    simp
  refine ⟨main, ?_⟩
  intro slash mids bang rest counter hs hm hb hval
  rw [main slash mids bang rest hs hm hb hval]

/-- Concrete instance of the C8 theorem: the telegram `/A`, `!0000` has a
wrong CRC (the correct one is `0x8196`), so reading skips it entirely and
the stream-iteration outcome and counter equal those of the input without
it. -/
theorem crc_mismatch_discards_telegram_witness :
    read_telegram [[47, 65], [33, 48, 48, 48, 48], [47, 65], [33, 56, 49, 57, 54]] [] false =
      read_telegram [[47, 65], [33, 56, 49, 57, 54]] [] false ∧
    p1StreamStep 2 (read_telegram [[47, 65], [33, 48, 48, 48, 48], [47, 65], [33, 56, 49, 57, 54]]
        [] false) =
      p1StreamStep 2 (read_telegram [[47, 65], [33, 56, 49, 57, 54]] [] false) :=
  ⟨crc_mismatch_discards_telegram.1 [47, 65] [] [33, 48, 48, 48, 48]
      [[47, 65], [33, 56, 49, 57, 54]] (by decide) (by decide) (by decide) (by decide),
   crc_mismatch_discards_telegram.2 [47, 65] [] [33, 48, 48, 48, 48]
      [[47, 65], [33, 56, 49, 57, 54]] 2 (by decide) (by decide) (by decide) (by decide)⟩

/-- `takeWhile` over a run that satisfies the predicate, stopped by a
first failing element, returns exactly the run. -/
theorem takeWhile_append_not (p : Nat → Bool) :
    ∀ (xs : List Nat) (y : Nat) (ys : List Nat), xs.all p = true → p y = false →
    (xs ++ y :: ys).takeWhile p = xs := by
  intro xs
  induction xs with
  | nil => intro y ys _ hy; simp [List.takeWhile_cons, hy]
  | cons x xs ih =>
    intro y ys hall hy
    have hx : p x = true := by
      have := List.all_eq_true.mp hall x (List.mem_cons_self _ _)
      simpa using this
    have hrest : xs.all p = true := by
      rw [List.all_eq_true]
      exact fun z hz => List.all_eq_true.mp hall z (List.mem_cons_of_mem _ hz)
    simp [List.takeWhile_cons, hx, ih y ys hrest hy]

/-- An anchored attempt on `g1 ++ "(" ++ g2 ++ (z :: zs)` with well-formed
maximal groups reduces to the unit-suffix match on `z :: zs`. -/
theorem tryMatch_wellformed (g1 g2 : List Nat) (z : Nat) (zs : List Nat)
    (h1 : g1 ≠ []) (ha1 : g1.all isClass1 = true)
    (h2 : g2 ≠ []) (ha2 : g2.all isClass2 = true) (hz : isClass2 z = false) :
    tryMatch (g1 ++ 40 :: (g2 ++ z :: zs)) =
      (match z :: zs with
       | 42 :: 107 :: 87 :: 41 :: _ => some (g1, g2)
       | 42 :: 87 :: 41 :: _ => some (g1, g2)
       | 41 :: _ => some (g1, g2)
       | _ => none) := by
  have h40 : isClass1 40 = false := by decide
  have htake1 : (g1 ++ 40 :: (g2 ++ z :: zs)).takeWhile isClass1 = g1 :=
    takeWhile_append_not isClass1 g1 40 (g2 ++ z :: zs) ha1 h40
  have hne1 : g1.isEmpty = false := by
    cases g1
    · exact absurd rfl h1
    · rfl
  have htake2 : (g2 ++ z :: zs).takeWhile isClass2 = g2 :=
    takeWhile_append_not isClass2 g2 z zs ha2 hz
  have hne2 : g2.isEmpty = false := by
    cases g2
    · exact absurd rfl h2
    · rfl
  unfold tryMatch
  simp only [htake1, hne1, Bool.false_eq_true, if_false, List.drop_left, htake2, hne2,
    List.drop_left]

/-- A successful anchored attempt at the start of a nonempty line is the
leftmost match. -/
theorem obisMatch_of_tryMatch {s : List Nat} {g : List Nat × List Nat}
    (hne : s ≠ []) (h : tryMatch s = some g) : obisMatch s = some g := by
  cases s with
  | nil => exact absurd rfl hne
  | cons b rest => rw [obisMatch, h]

/-- The line scan tracks exactly which of the two OBIS codes have been
seen (last assignment wins; the accumulators seed the scan). -/
theorem scanLines_spec :
    ∀ (ls : List (List Nat)) (c0 p0 : Option ℚ) (c p : Option ℚ),
      scanLines ls c0 p0 = .ok (c, p) →
      c.isSome = (c0.isSome || codePresent OBIS_CONSUMPTION ls) ∧
      p.isSome = (p0.isSome || codePresent OBIS_PRODUCTION ls) := by
  intro ls
  induction ls with
  | nil =>
    intro c0 p0 c p h
    simp only [scanLines] at h
    cases h
    simp [codePresent]
  | cons l ls ih =>
    intro c0 p0 c p h
    simp only [scanLines] at h
    cases hm : obisMatch l with
    | none =>
      rw [hm] at h
      have := ih c0 p0 c p h
      simp [codePresent, List.any_cons, hm] at this ⊢
      exact this
    | some g =>
      obtain ⟨g1, g2⟩ := g
      rw [hm] at h
      dsimp only at h
      cases hd : parseDecimal g2 with
      | none =>
        rw [hd] at h
        dsimp only at h
        exact absurd h (by simp)
      | some v =>
        rw [hd] at h
        dsimp only at h
        by_cases hc : g1 = OBIS_CONSUMPTION
        · rw [if_pos hc] at h
          have := ih (some v) p0 c p h
          have hcons : (g1 == OBIS_CONSUMPTION) = true := beq_iff_eq.mpr hc
          have hprod : (g1 == OBIS_PRODUCTION) = false := by
            rw [beq_eq_false_iff_ne, hc]
            decide
          simp [codePresent, List.any_cons, hm, hcons, hprod] at this ⊢
          exact this
        · rw [if_neg hc] at h
          by_cases hp : g1 = OBIS_PRODUCTION
          · rw [if_pos hp] at h
            have := ih c0 (some v) c p h
            have hcons : (g1 == OBIS_CONSUMPTION) = false := by
              rw [beq_eq_false_iff_ne, hp]
              decide
            have hprod : (g1 == OBIS_PRODUCTION) = true := beq_iff_eq.mpr hp
            simp [codePresent, List.any_cons, hm, hcons, hprod] at this ⊢
            exact this
          · rw [if_neg hp] at h
            have := ih c0 p0 c p h
            have hcons : (g1 == OBIS_CONSUMPTION) = false := beq_eq_false_iff_ne.mpr hc
            have hprod : (g1 == OBIS_PRODUCTION) = false := beq_eq_false_iff_ne.mpr hp
            simp [codePresent, List.any_cons, hm, hcons, hprod] at this ⊢
            exact this

/-- Claim C2 (amended): as long as every regex-matched value parses as a
float (otherwise `_parse_power` raises, see the counterexample), the parse
returns the reading `(consumption − production) × 1000` watts with a
missing code of the pair read as 0, returns `none` exactly when neither
code occurs, and the unit suffixes `*kW`, `*W` or nothing are all
tolerated on a matched value. -/
theorem parse_power_characterisation :
    (∀ t : List (List Nat),
      match scanLines t none none with
      | .error _ => parse_power t = .error ()
      | .ok (c, p) =>
        parse_power t = .ok (if c.isSome || p.isSome then
            some { power_watts := (c.getD 0 - p.getD 0) * 1000, timestamp := none }
          else none) ∧
        c.isSome = codePresent OBIS_CONSUMPTION t ∧
        p.isSome = codePresent OBIS_PRODUCTION t) ∧
    (∀ (g1 g2 suffix : List Nat), g1 ≠ [] → g1.all isClass1 = true →
      g2 ≠ [] → g2.all isClass2 = true →
      obisMatch (g1 ++ 40 :: (g2 ++ 42 :: 107 :: 87 :: 41 :: suffix)) = some (g1, g2) ∧
      obisMatch (g1 ++ 40 :: (g2 ++ 42 :: 87 :: 41 :: suffix)) = some (g1, g2) ∧
      obisMatch (g1 ++ 40 :: (g2 ++ 41 :: suffix)) = some (g1, g2)) := by
  constructor
  · intro t
    cases hs : scanLines t none none with
    | error e =>
      cases e
      unfold parse_power
      rw [hs]
      rfl
    | ok cp =>
      obtain ⟨c, p⟩ := cp
      refine ⟨?_, ?_⟩
      · unfold parse_power
        rw [hs]
        have : (c.getD 0 - p.getD 0) * 1000 = c.getD 0 * 1000 - p.getD 0 * 1000 := sub_mul _ _ _
        simp [Except.map, this]
      · have := scanLines_spec t none none c p hs
        simpa using this
  · intro g1 g2 suffix h1 ha1 h2 ha2
    have hne : ∀ (w : List Nat), g1 ++ 40 :: w ≠ [] := by
      intro w
      simp
    refine ⟨?_, ?_, ?_⟩
    · exact obisMatch_of_tryMatch (hne _)
        (tryMatch_wellformed g1 g2 42 (107 :: 87 :: 41 :: suffix) h1 ha1 h2 ha2 (by decide))
    · exact obisMatch_of_tryMatch (hne _)
        (tryMatch_wellformed g1 g2 42 (87 :: 41 :: suffix) h1 ha1 h2 ha2 (by decide))
    · exact obisMatch_of_tryMatch (hne _)
        (tryMatch_wellformed g1 g2 41 suffix h1 ha1 h2 ha2 (by decide))

/-- Concrete instance of the C2 theorem: the consumption code with value
group `0` is matched with each of the three unit-suffix forms. -/
theorem parse_power_characterisation_witness :
    obisMatch (OBIS_CONSUMPTION ++ 40 :: ([48] ++ 42 :: 107 :: 87 :: 41 :: [])) =
      some (OBIS_CONSUMPTION, [48]) ∧
    obisMatch (OBIS_CONSUMPTION ++ 40 :: ([48] ++ 42 :: 87 :: 41 :: [])) =
      some (OBIS_CONSUMPTION, [48]) ∧
    obisMatch (OBIS_CONSUMPTION ++ 40 :: ([48] ++ 41 :: [])) =
      some (OBIS_CONSUMPTION, [48]) :=
  parse_power_characterisation.2 OBIS_CONSUMPTION [48] [] (by decide) (by decide)
    (by decide) (by decide)

/-- Claim C2 counterexample: the telegram line `1-0:1.7.0(1.2.3)` carries
the consumption OBIS code (the regex matches it with value group `1.2.3`),
yet `_parse_power` does not return a reading: `float("1.2.3")` raises an
uncaught `ValueError`. -/
theorem parse_power_counterexample :
    codePresent OBIS_CONSUMPTION [strB "1-0:1.7.0(1.2.3)"] = true ∧
    parse_power [strB "1-0:1.7.0(1.2.3)"] = .error () :=
  ⟨by decide, rfl⟩

/-- Python `round` is the identity on integers. -/
theorem pyRound_ofInt (n : ℤ) : pyRound (n : ℚ) = n := by
  unfold pyRound
  rw [Int.floor_intCast]
  norm_num

/-- Claim C3 (amended): `push_to_lametric` formats the rounded power as an
integer watt string when the rounded magnitude is below 10000 and as a
one-decimal kilowatt string otherwise, picks the producing icon exactly
when the rounded power is negative, always uses frame index 0, and the
spec's five examples hold; `push_to_lametric_stale` is the fixed `-- W`
frame with the stale icon. -/
theorem push_format_characterisation :
    (∀ r : PowerReading,
      (|pyRound r.power_watts| < 10000 →
        (push_to_lametric r).text = s!"{pyRound r.power_watts} W") ∧
      (10000 ≤ |pyRound r.power_watts| →
        (push_to_lametric r).text = fmt1 ((pyRound r.power_watts : ℚ) / 1000) ++ " kW") ∧
      ((push_to_lametric r).icon = ICON_SOLAR ↔ pyRound r.power_watts < 0) ∧
      ((push_to_lametric r).icon = ICON_POWER ↔ 0 ≤ pyRound r.power_watts) ∧
      (push_to_lametric r).index = 0) ∧
    push_to_lametric { power_watts := 1500 } = { text := "1500 W", icon := ICON_POWER, index := 0 } ∧
    push_to_lametric { power_watts := -500 } = { text := "-500 W", icon := ICON_SOLAR, index := 0 } ∧
    push_to_lametric { power_watts := 1807/10 } = { text := "181 W", icon := ICON_POWER, index := 0 } ∧
    push_to_lametric { power_watts := 10500 } = { text := "10.5 kW", icon := ICON_POWER, index := 0 } ∧
    push_to_lametric { power_watts := -11000 } = { text := "-11.0 kW", icon := ICON_SOLAR, index := 0 } ∧
    push_to_lametric_stale = { text := "-- W", icon := ICON_STALE, index := 0 } := by
  have hgen : ∀ r : PowerReading,
      (|pyRound r.power_watts| < 10000 →
        (push_to_lametric r).text = s!"{pyRound r.power_watts} W") ∧
      (10000 ≤ |pyRound r.power_watts| →
        (push_to_lametric r).text = fmt1 ((pyRound r.power_watts : ℚ) / 1000) ++ " kW") ∧
      ((push_to_lametric r).icon = ICON_SOLAR ↔ pyRound r.power_watts < 0) ∧
      ((push_to_lametric r).icon = ICON_POWER ↔ 0 ≤ pyRound r.power_watts) ∧
      (push_to_lametric r).index = 0 := by
    intro r
    refine ⟨?_, ?_, ?_, ?_, rfl⟩
    · intro h
      simp only [push_to_lametric]
      rw [if_neg (by omega)]
    · intro h
      simp only [push_to_lametric]
      rw [if_pos h]
    · simp only [push_to_lametric]
      by_cases hp : pyRound r.power_watts < 0 <;>
        simp [hp, ICON_SOLAR, ICON_POWER]
    · simp only [push_to_lametric]
      by_cases hp : pyRound r.power_watts < 0
      · simp [hp, ICON_SOLAR, ICON_POWER]
      · simp [hp, ICON_SOLAR, ICON_POWER]
        omega
  refine ⟨hgen, ?_, ?_, ?_, ?_, ?_, rfl⟩
  · have hp : pyRound ((1500 : ℚ)) = 1500 := by
      have := pyRound_ofInt 1500
      norm_num at this
      exact this
    simp only [push_to_lametric, hp]
    norm_num
    decide
  · have hp : pyRound ((-500 : ℚ)) = -500 := by
      have := pyRound_ofInt (-500)
      norm_num at this
      exact this
    simp only [push_to_lametric, hp]
    norm_num
    decide
  · have hfl : ⌊(1807/10 : ℚ)⌋ = 180 := by norm_num
    have hp : pyRound ((1807/10 : ℚ)) = 181 := by
      unfold pyRound
      rw [hfl]
      norm_num
    simp only [push_to_lametric, hp]
    norm_num
    decide
  · have hp : pyRound ((10500 : ℚ)) = 10500 := by
      have := pyRound_ofInt 10500
      norm_num at this
      exact this
    have harg : ((10500 : ℤ) : ℚ) / 1000 * 10 = ((105 : ℤ) : ℚ) := by norm_num
    have hf : fmt1 (((10500 : ℤ) : ℚ) / 1000) = "10.5" := by
      unfold fmt1
      rw [harg, pyRound_ofInt 105]
      norm_num
      decide
    simp only [push_to_lametric, hp]
    rw [if_pos (by norm_num), hf]
    norm_num
    decide
  · have hp : pyRound ((-11000 : ℚ)) = -11000 := by
      have := pyRound_ofInt (-11000)
      norm_num at this
      exact this
    have harg : ((-11000 : ℤ) : ℚ) / 1000 * 10 = ((-110 : ℤ) : ℚ) := by norm_num
    have hf : fmt1 (((-11000 : ℤ) : ℚ) / 1000) = "-11.0" := by
      unfold fmt1
      rw [harg, pyRound_ofInt (-110)]
      norm_num
      decide
    simp only [push_to_lametric, hp]
    rw [if_pos (by norm_num), hf]
    norm_num
    decide

/-- Concrete instance of the C3 theorem: 1500 W stays in the watt format
and −11000 W is shown in the kilowatt format. -/
theorem push_format_characterisation_witness :
    (|pyRound ((1500 : ℚ))| < 10000 ∧
      (push_to_lametric { power_watts := 1500 }).text = s!"{pyRound ((1500 : ℚ))} W") ∧
    (10000 ≤ |pyRound ((11000 : ℚ))| ∧
      (push_to_lametric { power_watts := 11000 }).text =
        fmt1 ((pyRound ((11000 : ℚ)) : ℚ) / 1000) ++ " kW") :=
  ⟨⟨by simp [pyRound],
    (push_format_characterisation.1 { power_watts := 1500 }).1 (by simp [pyRound])⟩,
   ⟨by simp [pyRound],
    (push_format_characterisation.1 { power_watts := 11000 }).2.1 (by simp [pyRound])⟩⟩

/-- Claim C3 counterexample: the reading 9999.7 W has absolute magnitude
below 10000, yet the sink formats it as `10.0 kW` (the rounded value
10000 reaches the kilowatt branch), not as a rounded integer watt
string. -/
theorem push_format_counterexample :
    |(99997/10 : ℚ)| < 10000 ∧
    (push_to_lametric { power_watts := 99997/10 }).text = "10.0 kW" := by
  constructor
  · rw [abs_of_nonneg (by norm_num)]
    norm_num
  · have hfl : ⌊(99997/10 : ℚ)⌋ = 9999 := by norm_num
    have hp : pyRound ((99997/10 : ℚ)) = 10000 := by
      unfold pyRound
      rw [hfl]
      norm_num
    have harg : ((10000 : ℤ) : ℚ) / 1000 * 10 = ((100 : ℤ) : ℚ) := by norm_num
    have hf : fmt1 (((10000 : ℤ) : ℚ) / 1000) = "10.0" := by
      unfold fmt1
      rw [harg, pyRound_ofInt 100]
      norm_num
      decide
    simp only [push_to_lametric, hp]
    rw [if_pos (by norm_num), hf]
    rfl

/-- Claim C4 counterexample: a base URL with no explicit port does not
keep its (absent) port: `_replace_host` inserts the default `8080`. -/
theorem replace_host_counterexample :
    (replace_host
        { scheme := "http", host := "192.168.2.2", port := none,
          path := "/api/v2/widget/update/com.lametric.diy.devwidget/abc123",
          params := "", query := "", fragment := "" } "10.0.0.1").port = some 8080 ∧
    ({ scheme := "http", host := "192.168.2.2", port := none,
          path := "/api/v2/widget/update/com.lametric.diy.devwidget/abc123",
          params := "", query := "", fragment := "" } : URLParts).port = none := by
  constructor
  · rfl
  · rfl

/-- Claim C4 (amended): host substitution keeps scheme, path, params,
query and fragment byte-for-byte and sets the host to the new IP; an
explicit nonzero port is preserved, while an absent port (or the falsy
port 0) becomes the default 8080. -/
theorem replace_host_characterisation :
    ∀ (u : URLParts) (ip : String),
      (replace_host u ip).scheme = u.scheme ∧
      (replace_host u ip).host = ip ∧
      (replace_host u ip).path = u.path ∧
      (replace_host u ip).params = u.params ∧
      (replace_host u ip).query = u.query ∧
      (replace_host u ip).fragment = u.fragment ∧
      (∀ p : Nat, u.port = some p → p ≠ 0 → (replace_host u ip).port = some p) ∧
      (u.port = none → (replace_host u ip).port = some 8080) ∧
      (u.port = some 0 → (replace_host u ip).port = some 8080) := by
  intro u ip
  refine ⟨rfl, rfl, rfl, rfl, rfl, rfl, ?_, ?_, ?_⟩
  · intro p hp hp0
    simp only [replace_host, hp]
    rw [if_neg hp0]
  · intro hp
    simp only [replace_host, hp]
  · intro hp
    simp only [replace_host, hp]
    simp

/-- Concrete instance of the C4 theorem: an explicit port 8080 with an
opaque widget-secret path is preserved under host substitution. -/
theorem replace_host_characterisation_witness :
    (replace_host
        { scheme := "http", host := "192.168.2.2", port := some 8080,
          path := "/api/v2/widget/update/com.lametric.diy.devwidget/abc123",
          params := "", query := "x=1", fragment := "" } "192.168.2.10").port = some 8080 ∧
    (replace_host
        { scheme := "http", host := "192.168.2.2", port := some 8080,
          path := "/api/v2/widget/update/com.lametric.diy.devwidget/abc123",
          params := "", query := "x=1", fragment := "" } "192.168.2.10").path =
      "/api/v2/widget/update/com.lametric.diy.devwidget/abc123" :=
  ⟨(replace_host_characterisation
      { scheme := "http", host := "192.168.2.2", port := some 8080,
        path := "/api/v2/widget/update/com.lametric.diy.devwidget/abc123",
        params := "", query := "x=1", fragment := "" } "192.168.2.10").2.2.2.2.2.2.1 8080
      rfl (by decide),
   (replace_host_characterisation
      { scheme := "http", host := "192.168.2.2", port := some 8080,
        path := "/api/v2/widget/update/com.lametric.diy.devwidget/abc123",
        params := "", query := "x=1", fragment := "" } "192.168.2.10").2.2.1⟩

/-- Claim C5 (amended): with no accepted reply within the timeout the
discovery yields no address; and the first accepted reply's sender IP is
returned — even when further (distinct) responders exist, the first one
is auto-selected and no ambiguity is detected. -/
theorem ssdp_selection_characterisation :
    (∀ replies : List (String × String),
      (∀ r ∈ replies, ssdpOk r.1 = false) → ssdpCollect replies = none) ∧
    (∀ (pre : List (String × String)) (msg ip : String) (rest : List (String × String)),
      (∀ r ∈ pre, ssdpOk r.1 = false) → ssdpOk msg = true →
      ssdpCollect (pre ++ (msg, ip) :: rest) = some ip) := by
  constructor
  · intro replies
    induction replies with
    | nil => intro _; rfl
    | cons r rest ih =>
      intro h
      obtain ⟨msg, ip⟩ := r
      have hr := h (msg, ip) (List.mem_cons_self _ _)
      simp only [ssdpCollect, hr, Bool.false_eq_true, if_false]
      exact ih fun x hx => h x (List.mem_cons_of_mem _ hx)
  · intro pre
    induction pre with
    | nil =>
      intro msg ip rest _ hok
      simp only [List.nil_append, ssdpCollect, hok, if_true]
    | cons r pre ih =>
      intro msg ip rest h hok
      obtain ⟨m, i⟩ := r
      have hr := h (m, i) (List.mem_cons_self _ _)
      simp only [List.cons_append, ssdpCollect, hr, Bool.false_eq_true, if_false]
      exact ih msg ip rest (fun x hx => h x (List.mem_cons_of_mem _ hx)) hok

/-- Concrete instance of the C5 theorem: a single matching reply is
selected, and an input of non-matching noise yields no address. -/
theorem ssdp_selection_characterisation_witness :
    ssdpCollect [("HTTP/1.1 200 OK\r\nST: urn:schemas-upnp-org:device:LaMetric:1\r\n",
        "192.168.1.10")] = some "192.168.1.10" ∧
    ssdpCollect [("NOTIFY * HTTP/1.1\r\n", "192.168.1.9")] = none :=
  ⟨ssdp_selection_characterisation.2 [] "HTTP/1.1 200 OK\r\nST: urn:schemas-upnp-org:device:LaMetric:1\r\n"
      "192.168.1.10" [] (by decide) (by decide),
   ssdp_selection_characterisation.1 [("NOTIFY * HTTP/1.1\r\n", "192.168.1.9")] (by decide)⟩

/-- Claim C5 counterexample: two distinct responding IPs do not produce an
ambiguous failure — the first reply's address is auto-selected. -/
theorem ssdp_counterexample :
    ("192.168.1.10" : String) ≠ "192.168.1.20" ∧
    ssdpCollect
      [("HTTP/1.1 200 OK\r\nST: urn:schemas-upnp-org:device:LaMetric:1\r\n", "192.168.1.10"),
       ("HTTP/1.1 200 OK\r\nST: urn:schemas-upnp-org:device:LaMetric:1\r\n", "192.168.1.20")] =
      some "192.168.1.10" := by
  exact ⟨by decide, by decide⟩

/-- Claim C9 (amended): the `discovery_mdns` listener accepts only
advertisements whose `product_type` record equals the target (the first
such resolvable advertisement wins), while `discover_homewizard` in
`sources/discovery.py` accepts the first resolvable advertisement without
inspecting the product type at all. -/
theorem mdns_selection_characterisation :
    (∀ (ads : List MDNSAd) (ip : String),
      mdnsListener TARGET_PRODUCT_TYPE ads = some ip →
      ∃ ad ∈ ads, ∃ info, ad.info = some info ∧
        info.props.lookup "product_type" = some TARGET_PRODUCT_TYPE ∧
        info.addresses.head? = some ip) ∧
    (∀ (pre : List MDNSAd) (ad : MDNSAd) (rest : List MDNSAd) (info : AdInfo)
      (a : String) (addrs : List String),
      (∀ x ∈ pre, ∀ i, x.info = some i →
        ¬(i.props.lookup "product_type" = some TARGET_PRODUCT_TYPE ∧ i.addresses ≠ [])) →
      ad.info = some info →
      info.props.lookup "product_type" = some TARGET_PRODUCT_TYPE →
      info.addresses = a :: addrs →
      mdnsListener TARGET_PRODUCT_TYPE (pre ++ ad :: rest) = some a) ∧
    (∀ (ad : MDNSAd) (rest : List MDNSAd) (info : AdInfo) (a : String) (addrs : List String),
      ad.info = some info → info.addresses = a :: addrs →
      discover_homewizard (ad :: rest) = some a) := by
  refine ⟨?_, ?_, ?_⟩
  · intro ads
    induction ads with
    | nil => intro ip h; simp [mdnsListener] at h
    | cons ad rest ih =>
      intro ip h
      cases hi : ad.info with
      | none =>
        rw [mdnsListener, hi] at h
        dsimp only at h
        obtain ⟨x, hx, w⟩ := ih ip h
        exact ⟨x, List.mem_cons_of_mem _ hx, w⟩
      | some info =>
        rw [mdnsListener, hi] at h
        dsimp only at h
        by_cases ht : info.props.lookup "product_type" = some TARGET_PRODUCT_TYPE
        · rw [if_pos ht] at h
          cases ha : info.addresses with
          | nil =>
            rw [ha] at h
            obtain ⟨x, hx, w⟩ := ih ip h
            exact ⟨x, List.mem_cons_of_mem _ hx, w⟩
          | cons a addrs =>
            rw [ha] at h
            cases h
            exact ⟨ad, List.mem_cons_self _ _, info, hi, ht, by rw [ha]; rfl⟩
        · rw [if_neg ht] at h
          obtain ⟨x, hx, w⟩ := ih ip h
          exact ⟨x, List.mem_cons_of_mem _ hx, w⟩
  · intro pre
    induction pre with
    | nil =>
      intro ad rest info a addrs _ hi ht ha
      rw [List.nil_append, mdnsListener, hi]
      dsimp only
      rw [if_pos ht, ha]
    | cons x pre ih =>
      intro ad rest info a addrs h hi ht ha
      cases hxi : x.info with
      | none =>
        rw [List.cons_append, mdnsListener, hxi]
        dsimp only
        exact ih ad rest info a addrs (fun y hy => h y (List.mem_cons_of_mem _ hy)) hi ht ha
      | some xinfo =>
        have hx := h x (List.mem_cons_self _ _) xinfo hxi
        rw [List.cons_append, mdnsListener, hxi]
        dsimp only
        by_cases hxt : xinfo.props.lookup "product_type" = some TARGET_PRODUCT_TYPE
        · have haddr : xinfo.addresses = [] := by
            by_contra hne
            exact hx ⟨hxt, hne⟩
          rw [if_pos hxt, haddr]
          exact ih ad rest info a addrs (fun y hy => h y (List.mem_cons_of_mem _ hy)) hi ht ha
        · rw [if_neg hxt]
          exact ih ad rest info a addrs (fun y hy => h y (List.mem_cons_of_mem _ hy)) hi ht ha
  · intro ad rest info a addrs hi ha
    rw [discover_homewizard, hi]
    dsimp only
    rw [ha]

/-- Concrete instance of the C9 theorem: a matching P1-meter advertisement
is accepted by the filtering listener with its resolved IP. -/
theorem mdns_selection_characterisation_witness :
    mdnsListener TARGET_PRODUCT_TYPE
      [{ name := "p1", info := some { props := [("product_type", "HWE-P1")], addresses := ["192.168.2.87"] } }] = some "192.168.2.87" ∧
    discover_homewizard
      [{ name := "p1", info := some { props := [("product_type", "HWE-P1")], addresses := ["192.168.2.87"] } }] = some "192.168.2.87" :=
  ⟨mdns_selection_characterisation.2.1 []
      { name := "p1", info := some { props := [("product_type", "HWE-P1")], addresses := ["192.168.2.87"] } } [] { props := [("product_type", "HWE-P1")], addresses := ["192.168.2.87"] } "192.168.2.87" [] (by decide) rfl (by decide) rfl,
   mdns_selection_characterisation.2.2
      { name := "p1", info := some { props := [("product_type", "HWE-P1")], addresses := ["192.168.2.87"] } } [] { props := [("product_type", "HWE-P1")], addresses := ["192.168.2.87"] } "192.168.2.87" [] rfl rfl⟩

/-- Claim C9 counterexample: an advertisement with product type `HWE-SKT`
(not the expected meter model) is rejected by the filtering listener but
accepted by `discover_homewizard`, whose listener never checks the
product type. -/
theorem mdns_counterexample :
    ("HWE-SKT" : String) ≠ TARGET_PRODUCT_TYPE ∧
    mdnsListener TARGET_PRODUCT_TYPE
      [{ name := "socket", info := some { props := [("product_type", "HWE-SKT")], addresses := ["192.168.1.50"] } }] = none ∧
    discover_homewizard
      [{ name := "socket", info := some { props := [("product_type", "HWE-SKT")], addresses := ["192.168.1.50"] } }] = some "192.168.1.50" := by
  refine ⟨by decide, by decide, by decide⟩

/-- Claim C6 (amended): the serial and HTTP-poll stream loops reset the
consecutive-failure counter to zero at every successful yield; the
Local-WS (HomeWizard v2) data loop leaves the counter unchanged across
its yields and only a cleanly ending connection resets it. -/
theorem consecutive_failure_reset_characterisation :
    (∀ (c : Nat) (t : Option (List (List Nat))) (r : PowerReading) (n : Nat),
      p1StreamStep c t = (some r, n) → n = 0) ∧
    (∀ (c : Nat) (resp : HwResponse) (r : PowerReading) (n : Nat),
      hwP1StreamStep c resp = (some r, n) → n = 0) ∧
    (∀ (c : Nat) (msgs : List V2Msg) (r : PowerReading) (n : Nat),
      (r, n) ∈ v2DataLoop c msgs → n = c) ∧
    (∀ c : Nat, v2SessionEnd c true = 0) := by
  refine ⟨?_, ?_, ?_, fun c => rfl⟩
  · intro c t r n h
    cases t with
    | none => simp [p1StreamStep] at h
    | some tel =>
      cases hp : parse_power tel with
      | error e => simp [p1StreamStep, hp] at h
      | ok o =>
        cases o with
        | none => simp [p1StreamStep, hp] at h
        | some r' =>
          simp [p1StreamStep, hp] at h
          exact h.2.symm
  · intro c resp r n h
    cases resp with
    | busy => simp [hwP1StreamStep] at h
    | httpError => simp [hwP1StreamStep] at h
    | connError => simp [hwP1StreamStep] at h
    | body o =>
      cases o with
      | none => simp [hwP1StreamStep] at h
      | some p =>
        simp [hwP1StreamStep] at h
        exact h.2.symm
  · intro c msgs
    induction msgs with
    | nil => intro r n h; simp [v2DataLoop] at h
    | cons m rest ih =>
      intro r n h
      cases m with
      | measurement p ts =>
        cases p with
        | none =>
          rw [v2DataLoop] at h
          exact ih r n h
        | some q =>
          rw [v2DataLoop] at h
          rcases List.mem_cons.mp h with he | hm
          · cases he
            rfl
          · exact ih r n hm
      | errorMsg =>
        rw [v2DataLoop] at h
        exact ih r n h
      | other =>
        rw [v2DataLoop] at h
        exact ih r n h

/-- Concrete instance of the C6 theorem: the counter after a concrete
successful serial or HTTP-poll yield is zero, and a clean v2 close
resets. -/
theorem consecutive_failure_reset_characterisation_witness :
    (p1StreamStep 3 (some [strB "1-0:1.7.0(2)"])).2 = 0 ∧
    (hwP1StreamStep 3 (.body (some 500))).2 = 0 ∧
    v2SessionEnd 5 true = 0 :=
  ⟨consecutive_failure_reset_characterisation.1 3 (some [strB "1-0:1.7.0(2)"]) _ _ rfl,
   consecutive_failure_reset_characterisation.2.1 3 (.body (some 500)) _ _ rfl,
   consecutive_failure_reset_characterisation.2.2.2 5⟩

/-- Claim C6 counterexample: after two consecutive failures, a successful
HomeWizard v2 connection yields a reading while `consecutive_failures` is
still 2 — the counter is not reset at the yield point. -/
theorem v2_counter_counterexample :
    v2DataLoop 2 [.measurement (some 500) none] =
      [({ power_watts := 500, timestamp := none }, 2)] ∧ (2 : Nat) ≠ 0 :=
  ⟨rfl, by decide⟩

/-- Claim C7 (amended): the cloud source's missing credential (and its
other bootstrap failures) exit the process with status 1 immediately and
without retry, but the sink's missing API key or URL is not fatal: the
push is skipped or logged and the call returns normally. -/
theorem fatal_config_characterisation :
    (∀ bootstrap : Except PyExc TibberViewer, tibber_connect none bootstrap = .exited 1) ∧
    (∀ (token : String) (e : PyExc), tibber_connect (some token) (.error e) = .exited 1) ∧
    (∀ (viewer : TibberViewer) (token : String),
      viewer.websocketSubscriptionUrl = none →
      tibber_connect (some token) (.ok viewer) = .exited 1) ∧
    (∀ (viewer : TibberViewer) (token : String),
      viewer.homes.find? (·.realTimeConsumptionEnabled) = none →
      tibber_connect (some token) (.ok viewer) = .exited 1) ∧
    (∀ (baseUrl discoveredIp : Option String) (net : SinkNet),
      send_http_payload none baseUrl discoveredIp net = .ok .skippedNoApiKey) ∧
    (∀ (key : String) (discoveredIp : Option String) (net : SinkNet),
      send_http_payload (some key) none discoveredIp net = .ok .configErrorLogged) := by
  refine ⟨fun _ => rfl, fun _ _ => rfl, ?_, ?_, fun _ _ _ => rfl, fun _ _ _ => rfl⟩
  · intro viewer token h
    unfold tibber_connect
    dsimp only
    rw [h]
  · intro viewer token h
    unfold tibber_connect
    dsimp only
    rw [h]
    cases hw : viewer.websocketSubscriptionUrl <;> rfl

/-- Concrete instance of the C7 theorem: a viewer without a WebSocket URL
and a viewer without an eligible home each exit fatally. -/
theorem fatal_config_characterisation_witness :
    tibber_connect (some "token") (.ok { websocketSubscriptionUrl := none, homes := [] }) =
      .exited 1 ∧
    tibber_connect (some "token")
      (.ok { websocketSubscriptionUrl := some "wss://x", homes := [] }) = .exited 1 :=
  ⟨fatal_config_characterisation.2.2.1 { websocketSubscriptionUrl := none, homes := [] }
      "token" rfl,
   fatal_config_characterisation.2.2.2.1
      { websocketSubscriptionUrl := some "wss://x", homes := [] } "token" rfl⟩

/-- Claim C7 counterexample: a push with no configured API key returns
normally with a skip outcome — the process does not exit. -/
theorem config_fatal_counterexample :
    send_http_payload none (some "http://192.168.2.2:8080/api/v2") none
      { firstRequest := .ok (), rediscovered := none, retryRequest := .ok () } =
      .ok .skippedNoApiKey := rfl

/-- Claim C10: `send_http_payload` returns normally for every
configuration and network behaviour — a missing API key skips the push,
a missing URL is caught as a logged configuration error, a connection
failure runs the one rediscovery retry whose own failures are caught, and
any other request exception is caught and logged; `_retry_with_rediscovery`
likewise never lets an exception escape. -/
theorem sink_send_never_raises :
    (∀ (apiKey baseUrl discoveredIp : Option String) (net : SinkNet),
      ∃ o : SendOutcome, send_http_payload apiKey baseUrl discoveredIp net = .ok o) ∧
    (∀ (baseUrl discoveredIp : Option String) (net : SinkNet),
      send_http_payload none baseUrl discoveredIp net = .ok .skippedNoApiKey) ∧
    (∀ (canRediscover : Bool) (net : SinkNet),
      ∃ b : Bool, retry_with_rediscovery canRediscover net = .ok b) := by
  have hretry : ∀ (canRediscover : Bool) (net : SinkNet),
      ∃ b : Bool, retry_with_rediscovery canRediscover net = .ok b := by
    intro canRediscover net
    obtain ⟨fr, rd, rr⟩ := net
    cases canRediscover
    · exact ⟨false, rfl⟩
    · cases rd with
      | none => exact ⟨false, rfl⟩
      | some ip =>
        cases rr with
        | ok u => exact ⟨true, rfl⟩
        | error e => exact ⟨false, rfl⟩
  refine ⟨?_, fun _ _ _ => rfl, hretry⟩
  intro apiKey baseUrl disc net
  cases apiKey with
  | none => exact ⟨.skippedNoApiKey, rfl⟩
  | some key =>
    cases baseUrl with
    | none => exact ⟨.configErrorLogged, rfl⟩
    | some u =>
      obtain ⟨fr, rd, rr⟩ := net
      cases fr with
      | ok v => exact ⟨.sent, rfl⟩
      | error e =>
        cases e with
        | valueError => exact ⟨.configErrorLogged, rfl⟩
        | otherError => exact ⟨.failedLogged, rfl⟩
        | connectionError =>
          obtain ⟨b, hb⟩ := hretry disc.isSome ⟨.error .connectionError, rd, rr⟩
          refine ⟨if b then .retriedOk else .retryFailedLogged, ?_⟩
          show (retry_with_rediscovery disc.isSome ⟨.error .connectionError, rd, rr⟩).map _ = _
          rw [hb]
          rfl

end PowerBridge
